import Mathlib

/-!
# Verification of the Logic-Circuit-Simulator core

Shallow embedding of the simulation-engine code (value model, node value
semantics, edge-trigger detection, clock scheduling, persistence) together
with theorems checking the natural-language specification against it.

Sources embedded:
* `src/simulator/src/components/Node.ts` (NodeBase/NodeIn/NodeOut value logic)
* `src/simulator/src/components/ShiftBufferOut.ts` (doRecalcValue, valueByAddingNewBit)
* `src/simulator/src/components/InputByte.ts` (savedStateFrom, contentRepr)
* `src/simulator/src/components/DecoderBCD4.ts` (doRecalcValue, propagateValue)
* `src/unnamed/part_000` (Clock: currentClockValue, tickCallback)
* `src/unnamed/part_001` (QuadTriState.doRecalcValue)

Helpers living in files absent from `src/` (utils.ts, drawutils.ts,
FlipflopOrLatch.ts, Component.ts) are modelled from the spec; each such
definition carries a doc comment starting with `Modelled from the spec:`.
-/

namespace LCSim

/-- The four-valued logic type of the simulator: the JS values `false`, `true`
plus the symbolic values `Unknown` and `HighImpedance` (utils.ts `LogicValue`;
spec section 3). -/
inductive LogicValue where
  | fls
  | tru
  | unknown
  | highImpedance
deriving DecidableEq, Repr, Fintype

/-- Injection of a plain boolean into the four-valued domain. -/
def LogicValue.ofBool (b : Bool) : LogicValue := if b then .tru else .fls

/-- A value is definite when it is one of the two driven boolean values,
i.e. neither `Unknown` nor `HighImpedance`. -/
def LogicValue.isDefinite (v : LogicValue) : Prop := v = .fls ∨ v = .tru

instance (v : LogicValue) : Decidable v.isDefinite := by
  unfold LogicValue.isDefinite; infer_instance

/-- Modelled from the spec: `EdgeTrigger` from FlipflopOrLatch.ts is not under
`src/`; per section 4.4 the trigger policy of an edge-triggered component is
`rising` or `falling`. -/
inductive EdgeTrigger where
  | rising
  | falling
deriving DecidableEq, Repr, Fintype

/-- Modelled from the spec: `Flipflop.isClockTrigger` from FlipflopOrLatch.ts
is not under `src/`. Per sections 4.4 and 8, a transition is recognized only
when both the previous and current sampled values are definite (`true`/`false`)
and they differ in the configured direction: rising means previous `false` and
current `true`, falling means previous `true` and current `false`. -/
def isClockTrigger (trigger : EdgeTrigger) (prevClock clock : LogicValue) : Bool :=
  match trigger with
  | .rising => prevClock == .fls && clock == .tru
  | .falling => prevClock == .tru && clock == .fls

/-- Modelled from the spec: `displayValuesFromArray` from drawutils.ts is not
under `src/`; only its numeric result (second tuple component) is used by the
embedded code. Per section 4.1, any `Unknown`/`HighImpedance` bit makes the
encoded integer `Unknown` (here `none`); otherwise the bits encode a natural
number, the first array element being the least significant bit when
`mostSignificantFirst` is `false` and the most significant bit when it is
`true`. (Callers never pass an empty array.) -/
def displayValuesFromArray (values : List LogicValue) (mostSignificantFirst : Bool) :
    Option Nat :=
  if values.any (fun v => v == .unknown || v == .highImpedance) then
    none
  else
    some ((if mostSignificantFirst then values else values.reverse).foldl
      (fun acc v => 2 * acc + (if v == .tru then 1 else 0)) 0)

/-! ## ShiftBufferOut (src/simulator/src/components/ShiftBufferOut.ts) -/

/-- The decoder properties of a `ShiftBufferDecoder` entry
(`ShiftBufferDecoders_` table): decode width, maximum display width and the
decoding function from the accumulated integer to its string representation. -/
structure ShiftBufferDecoderProps where
  decodeWidth : Nat
  maxDisplayWidth : Nat
  decode : Nat → String

/-- Entry `raw` of the table of `ShiftBufferDecoders_`. -/
def rawDecoder : ShiftBufferDecoderProps :=
  { decodeWidth := 1, maxDisplayWidth := 16, decode := fun v => toString v }

/-- Entry `uint4` of the table of `ShiftBufferDecoders_`. -/
def uint4Decoder : ShiftBufferDecoderProps :=
  { decodeWidth := 4, maxDisplayWidth := 8, decode := fun v => toString v }

/-- The value of a ShiftBufferOut: the bits accumulated so far (`incoming`)
and the list of decoded groups (`decoded`), each group keeping its decoded
string (which is `Unset`, here `none`, when the group contained an indefinite
bit) and its bits. -/
structure ShiftBufferOutState where
  incoming : List LogicValue
  decoded : List (Option String × List LogicValue)
deriving DecidableEq

/-- The component-specific mutable state of a `ShiftBufferOut` instance that
`doRecalcValue` reads: the configured trigger, the last sampled clock value,
the configured decoder, the optional `maxItems` bound, and the current value. -/
structure ShiftBufferOut where
  trigger : EdgeTrigger
  lastClock : LogicValue
  decodeAs : ShiftBufferDecoderProps
  maxItems : Option Nat
  value : ShiftBufferOutState

/-- The three input values read by `ShiftBufferOut.doRecalcValue`
(INPUT.Clock, INPUT.Clear, INPUT.Data). -/
structure ShiftBufferOutInputs where
  clock : LogicValue
  clear : LogicValue
  data : LogicValue

/-- Embedding of `ShiftBufferOut.valueByAddingNewBit`: prepend the new bit; if fewer than
`decodeWidth` bits are accumulated, keep accumulating; otherwise decode the
group, prepend it to the decoded list and truncate that list to `maxItems`
(the `splice` call). -/
def valueByAddingNewBit (newBit : LogicValue) (oldValue : ShiftBufferOutState)
    (decoder : ShiftBufferDecoderProps) (maxItems : Nat) : ShiftBufferOutState :=
  let newIncoming := newBit :: oldValue.incoming
  if newIncoming.length < decoder.decodeWidth then
    { incoming := newIncoming, decoded := oldValue.decoded }
  else
    let valAsInt := displayValuesFromArray newIncoming true
    let decoded := valAsInt.map decoder.decode
    let newDecoded := (decoded, newIncoming) :: oldValue.decoded
    { incoming := [], decoded := newDecoded.take maxItems }

/-- Embedding of `ShiftBufferOut.doRecalcValue` (lines 142-157): if Clear is exactly `true`,
return the empty state; otherwise sample the clock (updating `_lastClock`,
returned here as the second component) and, on a recognized trigger, shift in
the data bit; otherwise return the previously held value. -/
def ShiftBufferOut.doRecalcValue (c : ShiftBufferOut) (inp : ShiftBufferOutInputs) :
    ShiftBufferOutState × LogicValue :=
  if inp.clear = .tru then
    ({ incoming := [], decoded := [] }, c.lastClock)
  else
    let prevClock := c.lastClock
    let clock := inp.clock
    let oldValue := c.value
    if isClockTrigger c.trigger prevClock clock then
      let newBit := inp.data
      let decoder := c.decodeAs
      let maxItems := c.maxItems.getD decoder.maxDisplayWidth
      (valueByAddingNewBit newBit oldValue decoder maxItems, clock)
    else
      (oldValue, clock)

/-! ## Clock (src/unnamed/part_000) -/

/-- The truncated quotient used by the JavaScript `%` operator: rounding the
real quotient toward zero. -/
def jsTrunc (q : ℚ) : ℤ := if 0 ≤ q then ⌊q⌋ else ⌈q⌉

/-- The JavaScript remainder operator `a % b`: `a - b * trunc(a / b)`, a
remainder carrying the sign of the dividend. -/
def jsMod (a b : ℚ) : ℚ := a - b * jsTrunc (a / b)

/-- The mathematical non-negative remainder of `a` modulo `p` (for `p > 0`
this is the representative of `a` in `[0, p)`), used to state the spec claim
about the clock wave. -/
def nonnegMod (a p : ℚ) : ℚ := a - p * ⌊a / p⌋

/-- Modelled from the spec: `ComponentState` from Component.ts is not under
`src/`; per section 3 a component transitions through
unplaced → placed/live → dead. -/
inductive ComponentState where
  | unplaced
  | live
  | dead
deriving DecidableEq, Repr

/-- The clock configuration read by `Clock.currentClockValue`:
`_period`, `_dutycycle` (percent) and `_phase`. -/
structure Clock where
  period : ℚ
  dutycycle : ℚ
  phase : ℚ

/-- Embedding of `Clock.currentClockValue` (part_000 lines 349-370): phase-shift the query
time, take the JS remainder modulo the period (corrected to be non-negative),
compare with the on-duration to get the value, and compute the next toggle
instant from the start of the current half-period. -/
def Clock.currentClockValue (c : Clock) (time : ℚ) : Bool × ℚ :=
  let myTime := time - c.phase
  let timeOverPeriod0 := jsMod myTime c.period
  let timeOverPeriod :=
    if timeOverPeriod0 < 0 then timeOverPeriod0 + c.period else timeOverPeriod0
  let onDuration := c.period * c.dutycycle / 100
  let offDuration := c.period - onDuration
  let (value, timeOverLastTick) :=
    if timeOverPeriod < onDuration then
      (true, timeOverPeriod)
    else
      (false, timeOverPeriod - onDuration)
  let lastTick := time - timeOverLastTick
  let nextTick := lastTick + (if value then onDuration else offDuration)
  (value, nextTick)

/-- Embedding of `Clock.tickCallback` (part_000 lines 378-384): compute the current value
and next tick, set the value (first component), and schedule the next tick
(second component, `some` scheduled time) only when the component state is not
`DEAD`. -/
def Clock.tickCallback (state : ComponentState) (c : Clock) (theoreticalTime : ℚ) :
    Bool × Option ℚ :=
  let (value, nextTick) := c.currentClockValue theoreticalTime
  (value, if state ≠ ComponentState.dead then some nextTick else none)

/-! ## QuadTriState (src/unnamed/part_001) -/

/-- A fixed 4-element array of logic values (`FixedReadonlyArray<LogicValue, 4>`). -/
structure LV4 where
  i0 : LogicValue
  i1 : LogicValue
  i2 : LogicValue
  i3 : LogicValue
deriving DecidableEq, Repr, Fintype

/-- Embedding of `FixedArrayFill(v, 4)`. -/
def LV4.fill (v : LogicValue) : LV4 := ⟨v, v, v, v⟩

/-- The input array in source order. -/
def LV4.toList (a : LV4) : List LogicValue := [a.i0, a.i1, a.i2, a.i3]

/-- Embedding of `QuadTriState.doRecalcValue` (part_001 lines 71-84): an indefinite Enable
yields all-`Unknown`; Enable `false` yields all-`HighImpedance`; Enable `true`
passes the four data inputs through verbatim. -/
def QuadTriState.doRecalcValue (input : LV4) (enable : LogicValue) : LV4 :=
  if enable = .unknown ∨ enable = .highImpedance then
    LV4.fill .unknown
  else if enable = .fls then
    LV4.fill .highImpedance
  else
    input

/-! ## Node value semantics (src/simulator/src/components/Node.ts) -/

/-- The value-relevant state of a `NodeOut`: the stored component-computed
value `_value` and the optional user override `_forceValue`. -/
structure NodeOut where
  stored : LogicValue
  force : Option LogicValue
deriving DecidableEq, Repr

/-- Embedding of the `NodeBase.value` getter (Node.ts lines 125-127): the forced value if one
is set, the stored computed value otherwise. -/
def NodeOut.value (n : NodeOut) : LogicValue :=
  match n.force with
  | some f => f
  | none => n.stored

/-- Embedding of the `NodeBase.value` setter plus `propagateNewValueIfNecessary`
(Node.ts lines 129-142): update the stored value when it changed, and
propagate (second component `some` propagated value) exactly when the visible
value changed. -/
def NodeOut.setValue (n : NodeOut) (val : LogicValue) : NodeOut × Option LogicValue :=
  let oldVisibleValue := n.value
  if val ≠ n.stored then
    let n1 : NodeOut := { n with stored := val }
    let newVisibleValue := n1.value
    if newVisibleValue ≠ oldVisibleValue then (n1, some newVisibleValue) else (n1, none)
  else
    (n, none)

/-- Embedding of the `NodeOut.forceValue` setter (Node.ts lines 316-321): install the new
forced value and propagate exactly when the visible value changed. -/
def NodeOut.setForceValue (n : NodeOut) (newForceValue : Option LogicValue) :
    NodeOut × Option LogicValue :=
  let oldVisibleValue := n.value
  let n1 : NodeOut := { n with force := newForceValue }
  let newVisibleValue := n1.value
  if newVisibleValue ≠ oldVisibleValue then (n1, some newVisibleValue) else (n1, none)

/-- The value-relevant state of a `NodeIn`: whether an incoming wire is
attached (`_incomingWire` non-null) and the visible value `_value`
(input nodes carry no forced value). -/
structure NodeIn where
  hasWire : Bool
  value : LogicValue
deriving DecidableEq, Repr

/-- A fresh `NodeIn` (Node.ts line 34: `_value` starts at `false`; line 244:
no incoming wire). -/
def NodeIn.init : NodeIn := { hasWire := false, value := .fls }

/-- The events that mutate a `NodeIn`: attaching a wire whose source output
node currently has value `sourceValue` (the `incomingWire` setter, non-null
branch), detaching the wire (null branch), and a delivery of value `v` by the
attached wire through the node's value setter. -/
inductive NodeInEvent where
  | attach (sourceValue : LogicValue)
  | detach
  | deliver (v : LogicValue)

/-- A `NodeIn` together with the ghost record of the value last delivered by
its current incoming wire (`none` when unconnected). -/
structure GNodeIn where
  node : NodeIn
  lastDelivered : Option LogicValue
deriving DecidableEq, Repr

/-- Initial ghost state: unconnected, nothing delivered. -/
def GNodeIn.init : GNodeIn := { node := NodeIn.init, lastDelivered := none }

/-- One step of the `NodeIn` state machine, following the `incomingWire`
setter (Node.ts lines 251-258) and the value setter. Attaching immediately
delivers the source node's current value; detaching sets the value to `false`;
a wire delivery sets the delivered value. A delivery only happens while a wire
is attached (spec section 5: callbacks on disconnected targets check liveness
and are ignored). -/
def GNodeIn.step (g : GNodeIn) (e : NodeInEvent) : GNodeIn :=
  match e with
  | .attach sourceValue =>
      { node := { hasWire := true, value := sourceValue }, lastDelivered := some sourceValue }
  | .detach =>
      { node := { hasWire := false, value := .fls }, lastDelivered := none }
  | .deliver v =>
      if g.node.hasWire then
        { node := { hasWire := true, value := v }, lastDelivered := some v }
      else
        g

/-- The states of a `NodeIn` reachable from a fresh node by wire
attachment/detachment and wire deliveries. -/
inductive GNodeIn.Reachable : GNodeIn → Prop where
  | init : GNodeIn.Reachable GNodeIn.init
  | step (g : GNodeIn) (e : NodeInEvent) :
      GNodeIn.Reachable g → GNodeIn.Reachable (g.step e)

/-! ## InputByte persistence (src/simulator/src/components/InputByte.ts) -/

/-- Modelled from the spec: `toLogicValueRepr` from utils.ts is not under
`src/`. Section 6 requires persisted state to be round-trippable; the `val`
string encodes each logic value as one character: `0`, `1`, `?` (Unknown) or
`Z` (HighImpedance). -/
def toLogicValueRepr (v : LogicValue) : Char :=
  match v with
  | .fls => '0'
  | .tru => '1'
  | .unknown => '?'
  | .highImpedance => 'Z'

/-- Modelled from the spec: `toLogicValueFromChar` from utils.ts is not under
`src/`. Inverse of `toLogicValueRepr`; per section 6 unrecognized input falls
back to the documented indeterminate default `Unknown`. -/
def toLogicValueFromChar (c : Char) : LogicValue :=
  if c = '1' then .tru
  else if c = '0' then .fls
  else if c = 'Z' then .highImpedance
  else .unknown

/-- A fixed 8-element array of logic values (`FixedArray<LogicValue, 8>`),
`b0` being entry 0. -/
structure LV8 where
  b0 : LogicValue
  b1 : LogicValue
  b2 : LogicValue
  b3 : LogicValue
  b4 : LogicValue
  b5 : LogicValue
  b6 : LogicValue
  b7 : LogicValue
deriving DecidableEq, Repr

/-- Embedding of `FixedArrayFill(v, 8)`. -/
def LV8.fill (v : LogicValue) : LV8 := ⟨v, v, v, v, v, v, v, v⟩

/-- The array in index order. -/
def LV8.toList (s : LV8) : List LogicValue :=
  [s.b0, s.b1, s.b2, s.b3, s.b4, s.b5, s.b6, s.b7]

/-- Embedding of `InputByte.contentRepr` (lines 76-90): `undefined` (`none`) when all 8
values are `false`; otherwise the values mapped to their character
representation and reversed (most significant first in the string). -/
def InputByte.contentRepr (s : LV8) : Option (List Char) :=
  if s.toList.any (fun v => v ≠ .fls) then
    some ((s.toList.map toLogicValueRepr).reverse)
  else
    none

/-- Embedding of `InputByte.savedStateFrom` (lines 28-43): a missing `val` loads as the
all-`false` default; otherwise entry `i` is parsed from character
`lastIndex - i` of the string, the loop breaking (leaving `false`) once that
index goes negative. -/
def InputByte.savedStateFrom (savedVal : Option (List Char)) : LV8 :=
  match savedVal with
  | none => LV8.fill .fls
  | some rep =>
      let entry (i : Nat) : LogicValue :=
        if i < rep.length then toLogicValueFromChar (rep.getD (rep.length - 1 - i) '0')
        else .fls
      ⟨entry 0, entry 1, entry 2, entry 3, entry 4, entry 5, entry 6, entry 7⟩

/-! ## DecoderBCD4 (src/simulator/src/components/DecoderBCD4.ts) -/

/-- A fixed 5-element array of logic values in `switch`-table order
(`a0` is array index 0, which `propagateValue` routes to output Z4). -/
structure LV5 where
  a0 : LogicValue
  a1 : LogicValue
  a2 : LogicValue
  a3 : LogicValue
  a4 : LogicValue
deriving DecidableEq, Repr

/-- Embedding of `FixedArrayFill(v, 5)`. -/
def LV5.fill (v : LogicValue) : LV5 := ⟨v, v, v, v, v⟩

/-- The five output node values of the decoder, named as the outputs Z0..Z4. -/
structure Z5 where
  z0 : LogicValue
  z1 : LogicValue
  z2 : LogicValue
  z3 : LogicValue
  z4 : LogicValue
deriving DecidableEq, Repr

/-- Embedding of `DecoderBCD4.doRecalcValue` (lines 73-105): interpret the four inputs as
an integer (first input least significant, `reverse = false`); an indefinite
input makes all five entries `Unknown`; otherwise the `switch` table maps
0..15 to the BCD encoding (array index 0 carrying the "≥ 10" flag). -/
def DecoderBCD4.doRecalcValue (input : LV4) : LV5 :=
  match displayValuesFromArray input.toList false with
  | none => LV5.fill .unknown
  | some value =>
      match value with
      | 0 => ⟨.fls, .fls, .fls, .fls, .fls⟩
      | 1 => ⟨.fls, .fls, .fls, .fls, .tru⟩
      | 2 => ⟨.fls, .fls, .fls, .tru, .fls⟩
      | 3 => ⟨.fls, .fls, .fls, .tru, .tru⟩
      | 4 => ⟨.fls, .fls, .tru, .fls, .fls⟩
      | 5 => ⟨.fls, .fls, .tru, .fls, .tru⟩
      | 6 => ⟨.fls, .fls, .tru, .tru, .fls⟩
      | 7 => ⟨.fls, .fls, .tru, .tru, .tru⟩
      | 8 => ⟨.fls, .tru, .fls, .fls, .fls⟩
      | 9 => ⟨.fls, .tru, .fls, .fls, .tru⟩
      | 10 => ⟨.tru, .fls, .fls, .fls, .fls⟩
      | 11 => ⟨.tru, .fls, .fls, .fls, .tru⟩
      | 12 => ⟨.tru, .fls, .fls, .tru, .fls⟩
      | 13 => ⟨.tru, .fls, .fls, .tru, .tru⟩
      | 14 => ⟨.tru, .fls, .tru, .fls, .fls⟩
      | 15 => ⟨.tru, .fls, .tru, .fls, .tru⟩
      | _ => LV5.fill .unknown

/-- Embedding of `DecoderBCD4.propagateValue` (lines 107-111): output node `i` receives
array entry `5 - i - 1`, i.e. the table entries are written to Z4..Z0 in
reverse. -/
def DecoderBCD4.propagateValue (newValue : LV5) : Z5 :=
  { z0 := newValue.a4
    z1 := newValue.a3
    z2 := newValue.a2
    z3 := newValue.a1
    z4 := newValue.a0 }

/-! ## Helper lemmas -/

/-- The value computed by `currentClockValue` compares the non-negatively
corrected JS remainder with the on-duration. -/
theorem currentClockValue_fst (c : Clock) (t : ℚ) :
    (c.currentClockValue t).1
      = decide ((if jsMod (t - c.phase) c.period < 0 then
            jsMod (t - c.phase) c.period + c.period
          else jsMod (t - c.phase) c.period) < c.period * c.dutycycle / 100) := by
  unfold Clock.currentClockValue
  by_cases h : (if jsMod (t - c.phase) c.period < 0 then
      jsMod (t - c.phase) c.period + c.period
    else jsMod (t - c.phase) c.period) < c.period * c.dutycycle / 100
  · simp [h]
  · simp [h]

/-- For a positive modulus, the JS remainder followed by the conditional
correction of `currentClockValue` computes exactly the mathematical
non-negative remainder. -/
theorem jsMod_corrected_eq (a p : ℚ) (hp : 0 < p) :
    (if jsMod a p < 0 then jsMod a p + p else jsMod a p) = nonnegMod a p := by
  have hp0 : p ≠ 0 := ne_of_gt hp
  have hpq : p * (a / p) = a := mul_div_cancel₀ a hp0
  have hfr : Int.fract (a / p) = a / p - ⌊a / p⌋ := (Int.self_sub_floor (a / p)).symm
  have h0 : 0 ≤ Int.fract (a / p) := Int.fract_nonneg _
  have h1 : Int.fract (a / p) < 1 := Int.fract_lt_one _
  have hnn : nonnegMod a p = p * Int.fract (a / p) := by
    rw [nonnegMod, hfr, mul_sub, hpq]
  rcases le_or_lt 0 (a / p) with hq | hq
  · have hjs : jsMod a p = p * Int.fract (a / p) := by
      rw [jsMod, jsTrunc, if_pos hq, hfr, mul_sub, hpq]
    have hge : 0 ≤ jsMod a p := hjs ▸ mul_nonneg hp.le h0
    rw [if_neg (not_lt.mpr hge), hjs, hnn]
  · by_cases hfz : Int.fract (a / p) = 0
    · have hqint : ((⌊a / p⌋ : ℤ) : ℚ) = a / p := by
        have h2 := hfr
        rw [hfz] at h2
        linarith
      have hceil : (⌈a / p⌉ : ℤ) = ⌊a / p⌋ := by
        rw [← hqint, Int.ceil_intCast, Int.floor_intCast]
      have hjs : jsMod a p = 0 := by
        rw [jsMod, jsTrunc, if_neg (not_le.mpr hq), hceil, hqint, hpq]
        ring
      rw [hjs, hnn, hfz, if_neg (by norm_num)]
      ring
    · have hceil : ((⌈a / p⌉ : ℤ) : ℚ) = a / p + 1 - Int.fract (a / p) :=
        Int.ceil_eq_add_one_sub_fract hfz
      have hjs : jsMod a p = p * Int.fract (a / p) - p := by
        rw [jsMod, jsTrunc, if_neg (not_le.mpr hq), hceil]
        linear_combination -(1 : ℚ) * hpq
      have hlt : jsMod a p < 0 := by
        have h2 : p * Int.fract (a / p) < p * 1 := mul_lt_mul_of_pos_left h1 hp
        rw [hjs]; linarith
      rw [if_pos hlt, hjs, hnn]
      ring

/-- Setting the forced value always produces the state with the new forced
value installed, whether or not propagation happens. -/
theorem setForceValue_fst (n : NodeOut) (fv : Option LogicValue) :
    (n.setForceValue fv).1 = { n with force := fv } := by
  unfold NodeOut.setForceValue
  dsimp only
  split <;> rfl

/-- Writing a computed value always produces the state with the new stored
value, whether or not propagation happens. -/
theorem setValue_fst (n : NodeOut) (val : LogicValue) :
    (n.setValue val).1 = { n with stored := val } := by
  unfold NodeOut.setValue
  dsimp only
  split
  · split <;> rfl
  · rename_i h
    push_neg at h
    subst h
    rfl

/-- The persisted character representation parses back to the value it was
produced from. -/
theorem parse_repr (v : LogicValue) : toLogicValueFromChar (toLogicValueRepr v) = v := by
  cases v <;> decide

/-! ## Claim theorems -/

/-- Claim C1: for the edge-triggered `ShiftBufferOut`, a recompute recognizes
a clock trigger only when both the previously sampled and the currently
sampled clock values are definite and they differ in the configured direction;
with a rising trigger, the sample sequence `false`, `Unknown`, `true` produces
no trigger on the step to `Unknown` and no trigger on the step from `Unknown`
to `true` (so in particular it triggers there only if the prior sample was the
definite value `false`); and when no trigger is recognized and Clear is not
asserted, `doRecalcValue` returns the previously held value. -/
theorem shiftBufferOut_trigger_spec :
    (∀ (trig : EdgeTrigger) (prev cur : LogicValue),
        isClockTrigger trig prev cur = true →
          prev.isDefinite ∧ cur.isDefinite ∧ prev ≠ cur
            ∧ (trig = .rising → prev = .fls ∧ cur = .tru)
            ∧ (trig = .falling → prev = .tru ∧ cur = .fls))
    ∧ isClockTrigger .rising .fls .unknown = false
    ∧ isClockTrigger .rising .unknown .tru = false
    ∧ (∀ (c : ShiftBufferOut) (inp : ShiftBufferOutInputs),
        inp.clear ≠ .tru →
        isClockTrigger c.trigger c.lastClock inp.clock = false →
        (c.doRecalcValue inp).1 = c.value) := by
  refine ⟨by decide, by decide, by decide, ?_⟩
  intro c inp h1 h2
  unfold ShiftBufferOut.doRecalcValue
  rw [if_neg h1]
  simp [h2]

/-- Witness for C1: a concrete `ShiftBufferOut` with rising trigger whose last
sampled clock was `Unknown` sees the current clock `true` without triggering
and keeps its value. -/
theorem shiftBufferOut_trigger_spec_witness :
    (ShiftBufferOutInputs.mk .tru .fls .fls).clear ≠ .tru
    ∧ isClockTrigger EdgeTrigger.rising .unknown .tru = false
    ∧ (ShiftBufferOut.doRecalcValue
          ⟨.rising, .unknown, rawDecoder, none, ⟨[], []⟩⟩
          ⟨.tru, .fls, .fls⟩).1
        = ⟨[], []⟩ :=
  ⟨by decide, by decide,
    shiftBufferOut_trigger_spec.2.2.2
      ⟨.rising, .unknown, rawDecoder, none, ⟨[], []⟩⟩
      ⟨.tru, .fls, .fls⟩ (by decide) (by decide)⟩

set_option maxRecDepth 8000 in
/-- Claim C3: `QuadTriState.doRecalcValue` returns all-`Unknown` when Enable
is indefinite, all-`HighImpedance` when Enable is `false`, and the four data
inputs verbatim (preserving `Unknown` and `HighImpedance`) when Enable is
`true`. -/
theorem quadTriState_recalc_spec :
    ∀ input : LV4,
      QuadTriState.doRecalcValue input .unknown = LV4.fill .unknown
      ∧ QuadTriState.doRecalcValue input .highImpedance = LV4.fill .unknown
      ∧ QuadTriState.doRecalcValue input .fls = LV4.fill .highImpedance
      ∧ QuadTriState.doRecalcValue input .tru = input := by
  decide

/-- Claim C4: whenever the Clear input is exactly `true`,
`ShiftBufferOut.doRecalcValue` returns the empty reset state regardless of the
clock input, the stored last clock value and the trigger policy. -/
theorem shiftBufferOut_clear_priority :
    ∀ (c : ShiftBufferOut) (clock data : LogicValue),
      (c.doRecalcValue ⟨clock, .tru, data⟩).1 = ⟨[], []⟩ := by
  intro c clock data
  unfold ShiftBufferOut.doRecalcValue
  rw [if_pos rfl]

/-- Claim C2: for every clock with positive period `p`, duty cycle `d` and
phase `f`, `currentClockValue t` returns `true` exactly when the non-negative
remainder of `t - f` modulo `p` is strictly below `p * d / 100`; and the
concrete clock with period 1000, duty cycle 50 and phase 0 queried at
theoretical time 1999 returns value `false` and next tick 2000. -/
theorem clock_currentClockValue_spec (p d f t : ℚ) (hp : 0 < p) :
    ((Clock.currentClockValue ⟨p, d, f⟩ t).1 = true
        ↔ nonnegMod (t - f) p < p * d / 100)
    ∧ Clock.currentClockValue ⟨1000, 50, 0⟩ 1999 = (false, 2000) := by
  constructor
  · rw [currentClockValue_fst]
    simp only [decide_eq_true_eq]
    rw [jsMod_corrected_eq (t - f) p hp]
  · unfold Clock.currentClockValue
    norm_num [jsMod, jsTrunc]

/-- Witness for C2: the spec's own example, period 1000, duty cycle 50,
phase 0, queried at time 1999. -/
theorem clock_currentClockValue_spec_witness :
    (0 : ℚ) < 1000
    ∧ (((Clock.currentClockValue ⟨1000, 50, 0⟩ 1999).1 = true
          ↔ nonnegMod (1999 - 0) 1000 < 1000 * 50 / 100)
        ∧ Clock.currentClockValue ⟨1000, 50, 0⟩ 1999 = (false, 2000)) :=
  ⟨by norm_num, clock_currentClockValue_spec 1000 50 0 1999 (by norm_num)⟩

/-- Claim C5: an output node's visible value is the forced value when one is
set and the stored computed value otherwise; after forcing `true` the visible
value is `true` whatever the computed value is, and after clearing the forced
value the next recompute's write restores the computed value as visible. -/
theorem nodeOut_forced_value_spec :
    ∀ (n : NodeOut) (cval : LogicValue),
      (n.setForceValue (some .tru)).1.value = .tru
      ∧ (((n.setForceValue none).1.setValue cval).1.value = cval)
      ∧ (∀ fv : LogicValue, (NodeOut.mk cval (some fv)).value = fv)
      ∧ (NodeOut.mk cval none).value = cval := by
  intro n cval
  refine ⟨?_, ?_, fun fv => rfl, rfl⟩
  · rw [setForceValue_fst]
    rfl
  · rw [setForceValue_fst, setValue_fst]
    rfl

/-- Claim C6: in every state of an input node reachable by wire attachment,
wire detachment and wire delivery, the visible value equals the value last
delivered by the incoming wire, or `false` when no wire is attached; moreover
detaching resets the value to `false` and attaching immediately delivers the
source output node's current value. -/
theorem nodeIn_value_invariant :
    (∀ g : GNodeIn, g.Reachable →
        g.node.value = g.lastDelivered.getD .fls
        ∧ g.node.hasWire = g.lastDelivered.isSome)
    ∧ (∀ g : GNodeIn, (g.step .detach).node.value = .fls)
    ∧ (∀ (g : GNodeIn) (sv : LogicValue), (g.step (.attach sv)).node.value = sv) := by
  refine ⟨?_, fun g => rfl, fun g sv => rfl⟩
  intro g h
  induction h with
  | init => exact ⟨rfl, rfl⟩
  | step g e hg ih =>
    cases e with
    | attach sv => exact ⟨rfl, rfl⟩
    | detach => exact ⟨rfl, rfl⟩
    | deliver v =>
      unfold GNodeIn.step
      by_cases hw : g.node.hasWire
      · simp [hw]
      · simp only [hw]
        simpa using ih

/-- Witness for C6: the freshly constructed input node is reachable and
satisfies the invariant. -/
theorem nodeIn_value_invariant_witness :
    GNodeIn.init.node.value = GNodeIn.init.lastDelivered.getD .fls
    ∧ GNodeIn.init.node.hasWire = GNodeIn.init.lastDelivered.isSome :=
  nodeIn_value_invariant.1 GNodeIn.init GNodeIn.Reachable.init

/-- Claim C7: the tick callback of a clock in the `DEAD` state sets its value
but schedules no further Timeline event. -/
theorem clock_dead_schedules_nothing :
    ∀ (c : Clock) (t : ℚ),
      (Clock.tickCallback .dead c t).2 = none
      ∧ (Clock.tickCallback .dead c t).1 = (c.currentClockValue t).1 := by
  intro c t
  rcases hcv : c.currentClockValue t with ⟨v, n⟩
  unfold Clock.tickCallback
  rw [hcv]
  simp

/-- Claim C8: writing a computed value through the value setter while a forced
value is set updates only the stored computed value: nothing is propagated and
the visible value is unchanged. -/
theorem nodeOut_setValue_while_forced :
    ∀ (v0 fv val : LogicValue),
      NodeOut.setValue ⟨v0, some fv⟩ val = (⟨val, some fv⟩, none)
      ∧ (NodeOut.mk val (some fv)).value = (NodeOut.mk v0 (some fv)).value := by
  decide

/-- Claim C9: saving and reloading an InputByte value is the identity:
`savedStateFrom` applied to the representation produced by `contentRepr`
reconstructs exactly the same 8 values; when all 8 bits are `false` the
persisted `val` field is omitted, and a missing `val` field loads as the
all-`false` default. -/
theorem inputByte_roundtrip (v : LV8) :
    InputByte.savedStateFrom (InputByte.contentRepr v) = v
    ∧ InputByte.contentRepr (LV8.fill .fls) = none
    ∧ InputByte.savedStateFrom none = LV8.fill .fls := by
  refine ⟨?_, by decide, by decide⟩
  obtain ⟨b0, b1, b2, b3, b4, b5, b6, b7⟩ := v
  by_cases h : ((LV8.mk b0 b1 b2 b3 b4 b5 b6 b7).toList.any
      fun x => decide (x ≠ .fls)) = true
  · have hrep : InputByte.contentRepr (LV8.mk b0 b1 b2 b3 b4 b5 b6 b7)
        = some [toLogicValueRepr b7, toLogicValueRepr b6, toLogicValueRepr b5,
                toLogicValueRepr b4, toLogicValueRepr b3, toLogicValueRepr b2,
                toLogicValueRepr b1, toLogicValueRepr b0] := by
      unfold InputByte.contentRepr
      rw [if_pos h]
      rfl
    rw [hrep]
    unfold InputByte.savedStateFrom
    simp [parse_repr]
  · have hrep : InputByte.contentRepr (LV8.mk b0 b1 b2 b3 b4 b5 b6 b7) = none := by
      unfold InputByte.contentRepr
      rw [if_neg h]
    rw [hrep]
    simp [LV8.toList] at h
    obtain ⟨h0, h1, h2, h3, h4, h5, h6, h7⟩ := h
    subst h0 h1 h2 h3 h4 h5 h6 h7
    rfl

set_option maxRecDepth 8000 in
/-- Claim C10: with four definite inputs encoding `n` (first input least
significant), the propagated decoder outputs give `Z4 = true` iff `n ≥ 10` and
`Z3..Z0` the binary encoding of `n mod 10` (through the reversed index write
of `propagateValue`); with any indefinite input, all five outputs are
`Unknown`. -/
theorem decoderBCD4_spec :
    (∀ b0 b1 b2 b3 : Bool,
        DecoderBCD4.propagateValue (DecoderBCD4.doRecalcValue
            ⟨.ofBool b0, .ofBool b1, .ofBool b2, .ofBool b3⟩)
          = { z0 := .ofBool (((b0.toNat + 2 * b1.toNat + 4 * b2.toNat
                  + 8 * b3.toNat) % 10).testBit 0)
              z1 := .ofBool (((b0.toNat + 2 * b1.toNat + 4 * b2.toNat
                  + 8 * b3.toNat) % 10).testBit 1)
              z2 := .ofBool (((b0.toNat + 2 * b1.toNat + 4 * b2.toNat
                  + 8 * b3.toNat) % 10).testBit 2)
              z3 := .ofBool (((b0.toNat + 2 * b1.toNat + 4 * b2.toNat
                  + 8 * b3.toNat) % 10).testBit 3)
              z4 := .ofBool (decide (10 ≤ b0.toNat + 2 * b1.toNat
                  + 4 * b2.toNat + 8 * b3.toNat)) })
    ∧ (∀ input : LV4,
        (input.toList.any fun v => v == .unknown || v == .highImpedance) = true →
        DecoderBCD4.propagateValue (DecoderBCD4.doRecalcValue input)
          = ⟨.unknown, .unknown, .unknown, .unknown, .unknown⟩) := by
  constructor
  · decide
  · decide

/-- Witness for C10: an input vector with an `Unknown` bit makes all five
propagated outputs `Unknown`. -/
theorem decoderBCD4_spec_witness :
    ((LV4.mk .unknown .fls .fls .fls).toList.any
        fun v => v == .unknown || v == .highImpedance) = true
    ∧ DecoderBCD4.propagateValue (DecoderBCD4.doRecalcValue
          (LV4.mk .unknown .fls .fls .fls))
        = ⟨.unknown, .unknown, .unknown, .unknown, .unknown⟩ :=
  ⟨by decide, decoderBCD4_spec.2 (LV4.mk .unknown .fls .fls .fls) (by decide)⟩

end LCSim
